import Mathlib

/-!
Verification of the storage-driver and archive-manager specification of the
Cloudreve repository slice. The definitions below are a shallow embedding of
the Go sources: package ks3 (the KS3-compatible storage driver) and package
manager (archive creation and listing). Backend calls are modelled as
explicit function parameters, machine integers as Int or Nat, and fallible
calls as Option or Except values.
-/

namespace Ks3

/-- File metadata returned by the head-object backend call, as surfaced by
Driver.Meta (fields Size and Etag). -/
structure MetaData where
  size : Int
  etag : String
deriving DecidableEq

/-- Subset of fs.UploadSession read by Driver.CompleteUpload: the sentinel
task id (session.SentinelTaskID), the target object key
(session.Props.SavePath) and the expected size (session.Props.Size). -/
structure UploadSession where
  sentinelTaskID : Int
  savePath : String
  size : Int
deriving DecidableEq

/-- Possible outcomes of Driver.CompleteUpload: success, a failed metadata
re-fetch (wrapped head error), or the CodeMetaMismatch integrity error
carrying the expected and actual sizes. -/
inductive CompleteUploadResult where
  | ok : CompleteUploadResult
  | metaError : CompleteUploadResult
  | sizeMismatch (expected actual : Int) : CompleteUploadResult
deriving DecidableEq

/-- Embedding of ks3 Driver.CompleteUpload. The head parameter models
Driver.Meta, i.e. the backend head-object call: none is a failed call, some
a successful one. The function returns nil immediately when SentinelTaskID
is 0; otherwise it re-fetches the object metadata and compares res.Size with
session.Props.Size, returning the CodeMetaMismatch error on inequality. -/
def CompleteUpload (head : String → Option MetaData) (session : UploadSession) :
    CompleteUploadResult :=
  if session.sentinelTaskID = 0 then .ok
  else
    match head session.savePath with
    | none => .metaError
    | some res =>
      if res.size ≠ session.size then .sizeMismatch session.size res.size
      else .ok

end Ks3

namespace Ks3

/-- C1, counterexample: a session whose SentinelTaskID is 0 with expected size
100 succeeds even though the stored object has size 99, because
CompleteUpload returns before re-fetching metadata. This refutes the claim
that every session with a size mismatch yields a hard integrity error. -/
theorem completeUpload_sentinel_zero_skips_check :
    CompleteUpload (fun _ => some ⟨99, "etag"⟩) ⟨0, "obj", 100⟩ = .ok ∧
      (99 : Int) ≠ 100 := by
  exact ⟨rfl, by decide⟩

/-- C1, amended: for every session whose sentinel task id is nonzero, when the
metadata re-fetch succeeds, CompleteUpload succeeds exactly when the fetched
actual size equals the expected size, and a mismatch yields the integrity
error carrying both sizes. -/
theorem completeUpload_verifies_size (head : String → Option Ks3.MetaData)
    (session : UploadSession) (hs : session.sentinelTaskID ≠ 0)
    (md : MetaData) (hm : head session.savePath = some md) :
    (CompleteUpload head session = .ok ↔ md.size = session.size) ∧
    (md.size ≠ session.size →
      CompleteUpload head session = .sizeMismatch session.size md.size) := by
  unfold CompleteUpload
  rw [if_neg hs, hm]
  refine ⟨?_, ?_⟩
  · by_cases h : md.size = session.size
    · simp [h]
    · simp [h]
  · intro h
    simp [h]

/-- C1, witness: the amended theorem applied to a concrete session with
sentinel task id 1, expected size 100 and actual size 100. -/
theorem completeUpload_verifies_size_witness :
    (CompleteUpload (fun _ => some ⟨100, "e"⟩) ⟨1, "obj", 100⟩ = .ok ↔
      (100 : Int) = 100) ∧
    ((100 : Int) ≠ 100 →
      CompleteUpload (fun _ => some ⟨100, "e"⟩) ⟨1, "obj", 100⟩ =
        .sizeMismatch 100 100) :=
  completeUpload_verifies_size (fun _ => some ⟨100, "e"⟩) ⟨1, "obj", 100⟩
    (by decide) ⟨100, "e"⟩ rfl

/-- Modelled from the spec: the Mode field of fs.UploadRequest lives in the fs
package, outside this repository slice; the spec (section 6) exposes it as
the boolean overwriteAllowed, which embeds the test
file.Mode AND fs.ModeOverwrite == fs.ModeOverwrite of Driver.Put. The other
fields are the destination key and size used by Driver.Put and
Driver.Token. -/
structure UploadRequest where
  savePath : String
  size : Int
  overwriteAllowed : Bool

/-- Possible outcomes of Driver.Put: the fs.ErrFileExisted duplicate error,
a successful upload, or a transfer error from the uploader. -/
inductive PutOutcome where
  | fileExisted : PutOutcome
  | success : PutOutcome
  | uploadFailed : PutOutcome
deriving DecidableEq

/-- Embedding of ks3 Driver.Put: unless the overwrite mode is set, a duplicate
check through Meta precedes the transfer and a successful head yields
fs.ErrFileExisted; otherwise a single-stream upload runs, its success given
by uploadOk. The Bool of the result records whether the byte transfer was
attempted at all. -/
def Put (head : String → Option MetaData) (file : UploadRequest)
    (uploadOk : Bool) : PutOutcome × Bool :=
  if ¬file.overwriteAllowed ∧ (head file.savePath).isSome then (.fileExisted, false)
  else if uploadOk then (.success, true)
  else (.uploadFailed, true)

/-- Modelled from the spec: chunk.NewChunkGroup and ChunkGroup.Num live in the
chunk package, outside this repository slice; the spec (section 4.2) fixes
the chunk count as ceil(totalSize / chunkSize). -/
def chunkNum (totalSize chunkSize : Nat) : Nat :=
  (totalSize + chunkSize - 1) / chunkSize

/-- Chunk size selected by ks3 New: the policy chunk size, defaulting to
25 MiB (25 shifted left by 20 bits) when the policy setting is 0. -/
def newChunkSize (policyChunkSize : Nat) : Nat :=
  if policyChunkSize = 0 then 25 <<< 20 else policyChunkSize

/-- Upload credential returned by Driver.Token (fs.UploadCredential). -/
structure UploadCredential where
  uploadID : String
  uploadURLs : List String
  completeURL : String
  sessionID : String
  chunkSize : Nat
deriving DecidableEq

/-- Errors surfaced by Driver.Token: the duplicate-object error or a failed
backend call (multipart creation or presigning). -/
inductive TokenError where
  | fileExisted : TokenError
  | backendError : TokenError
deriving DecidableEq

/-- Embedding of ks3 Driver.Token. The duplicate check through Meta comes
first; then CreateMultipartUpload runs (createMultipart: none is a failed
call, some an upload id); then the urls slice of length chunks.Num is
filled, entry of chunk index i holding the presigned URL for part number
i + 1 (signPart models GeneratePresignedUrl for a part, its sequential
cursor walking indices 0 to Num - 1); finally one finalize URL
(completeSign) is signed and the credential is assembled. -/
def Token (head : String → Option MetaData) (chunkSize : Nat)
    (createMultipart : Option String) (signPart : Nat → String)
    (completeSign : String) (sessionID savePath : String) (size : Nat) :
    Except TokenError UploadCredential :=
  if (head savePath).isSome then .error .fileExisted
  else
    match createMultipart with
    | none => .error .backendError
    | some uploadID =>
      .ok
        { uploadID := uploadID
          uploadURLs := (List.range (chunkNum size chunkSize)).map
            (fun i => signPart (i + 1))
          completeURL := completeSign
          sessionID := sessionID
          chunkSize := chunkSize }

/-- C3: every successful Token call for expected size E under the driver chunk
size (policy chunk size, 25 MiB when unset) returns exactly
ceil(E / chunkSize) per-chunk upload URLs, the entry of chunk index i being
the presigned URL for part number i + 1, plus the one finalize URL. -/
theorem token_url_count (head : String → Option MetaData) (p : Nat)
    (createMultipart : Option String) (signPart : Nat → String)
    (completeSign sessionID savePath : String) (size : Nat)
    (cred : UploadCredential)
    (h : Token head (newChunkSize p) createMultipart signPart completeSign
      sessionID savePath size = .ok cred) :
    cred.uploadURLs.length = chunkNum size (newChunkSize p) ∧
    (∀ i, i < chunkNum size (newChunkSize p) →
      cred.uploadURLs[i]? = some (signPart (i + 1))) ∧
    cred.completeURL = completeSign := by
  unfold Token at h
  split at h
  · exact absurd h (by simp)
  · split at h
    · exact absurd h (by simp)
    · have h2 := Except.ok.inj h
      subst h2
      refine ⟨by simp, ?_, rfl⟩
      intro i hi
      simp [List.getElem?_map, List.getElem?_range hi]

/-- C3, witness: the theorem applied to a policy chunk size of 5 and expected
size 12, giving ceil(12 / 5) = 3 upload URLs. -/
theorem token_url_count_witness :
    (((Token (fun _ => none) (newChunkSize 5) (some "uid") (fun n => Nat.repr n)
      "done" "sid" "path" 12).toOption.getD
        ⟨"", [], "", "", 0⟩).uploadURLs.length = chunkNum 12 (newChunkSize 5)) := by
  have h := token_url_count (fun _ => none) 5 (some "uid") (fun n => Nat.repr n)
    "done" "sid" "path" 12
    ⟨"uid", (List.range (chunkNum 12 (newChunkSize 5))).map
      (fun i => Nat.repr (i + 1)), "done", "sid", newChunkSize 5⟩ rfl
  exact h.1

/-- C4: without the overwrite mode an existing object at the destination makes
Put fail with the file-exists error before any byte transfer, with the
overwrite mode Put skips the duplicate check entirely (its outcome ignores
the head result), and Token always fails with the file-exists error on an
existing object before any credential issuance. -/
theorem put_token_duplicate_check (head head₂ : String → Option MetaData)
    (file : UploadRequest) (uploadOk : Bool) (chunkSize : Nat)
    (createMultipart : Option String) (signPart : Nat → String)
    (completeSign sessionID : String) (size : Nat)
    (hexists : (head file.savePath).isSome) :
    (file.overwriteAllowed = false → Put head file uploadOk = (.fileExisted, false)) ∧
    (file.overwriteAllowed = true →
      Put head file uploadOk = Put head₂ file uploadOk) ∧
    (Token head chunkSize createMultipart signPart completeSign sessionID
      file.savePath size = .error .fileExisted) := by
  refine ⟨?_, ?_, ?_⟩
  · intro hov
    simp [Put, hov, hexists]
  · intro hov
    simp [Put, hov]
  · unfold Token
    rw [if_pos hexists]

/-- C4, witness: the theorem applied to a concrete head with an object at the
destination key, for both overwrite modes. -/
theorem put_token_duplicate_check_witness :
    ((false = false → Put (fun _ => some ⟨7, "e"⟩) ⟨"dst", 7, false⟩ true =
      (.fileExisted, false)) ∧
    (false = true → Put (fun _ => some ⟨7, "e"⟩) ⟨"dst", 7, false⟩ true =
      Put (fun _ => none) ⟨"dst", 7, false⟩ true) ∧
    (Token (fun _ => some ⟨7, "e"⟩) 5 (some "uid") (fun _ => "u") "done" "sid"
      "dst" 12 = .error .fileExisted)) ∧
    ((true = false → Put (fun _ => some ⟨7, "e"⟩) ⟨"dst", 7, true⟩ false =
      (.fileExisted, false)) ∧
    (true = true → Put (fun _ => some ⟨7, "e"⟩) ⟨"dst", 7, true⟩ false =
      Put (fun _ => none) ⟨"dst", 7, true⟩ false) ∧
    (Token (fun _ => some ⟨7, "e"⟩) 5 (some "uid") (fun _ => "u") "done" "sid"
      "dst" 12 = .error .fileExisted)) :=
  ⟨put_token_duplicate_check (fun _ => some ⟨7, "e"⟩) (fun _ => none)
      ⟨"dst", 7, false⟩ true 5 (some "uid") (fun _ => "u") "done" "sid" 12 rfl,
    put_token_duplicate_check (fun _ => some ⟨7, "e"⟩) (fun _ => none)
      ⟨"dst", 7, true⟩ false 5 (some "uid") (fun _ => "u") "done" "sid" 12 rfl⟩

/-- Per-key error entry of a batch-delete response (an element of res.Errors,
fields Key and Code). -/
structure DeleteKeyError where
  key : String
  code : String
deriving DecidableEq

/-- Backend delete calls used by Driver.Delete: single models DeleteObject on
one key (none is success, some code an error with that backend code), batch
models DeleteObjects on a group (error is a call-level failure, ok errs a
successful call reporting per-key errors). -/
structure DeleteBackend where
  single : String → Option String
  batch : List String → Except String (List DeleteKeyError)

/-- Backend error code of a missing key, s3.ErrCodeNoSuchKey. -/
def errCodeNoSuchKey : String := "NoSuchKey"

/-- Embedding of lo.Chunk: split a list into consecutive groups of at most n
elements, meaningful for n at least 1 (the driver batch size is at least
1). -/
def loChunk (n : Nat) : List String → List (List String)
  | [] => []
  | x :: xs => (x :: xs.take (n - 1)) :: loChunk n (xs.drop (n - 1))
termination_by l => l.length
decreasing_by
  simp only [List.length_drop, List.length_cons]
  omega

/-- Group loop of ks3 Driver.Delete, threading the failed list and lastErr.
A group of one uses the single-delete call, skipping a NoSuchKey error and
recording any other error; a larger group uses the batch call, on call-level
failure appending the whole group and recording the error, on success
appending the key of each reported per-key error while leaving lastErr
untouched. -/
def deleteGroups (b : DeleteBackend) :
    List (List String) → List String × Option String → List String × Option String
  | [], acc => acc
  | group :: rest, (failed, lastErr) =>
    match group with
    | [key] =>
      match b.single key with
      | none => deleteGroups b rest (failed, lastErr)
      | some code =>
        if code = errCodeNoSuchKey then deleteGroups b rest (failed, lastErr)
        else deleteGroups b rest (failed ++ [key], some code)
    | _ =>
      match b.batch group with
      | .error e => deleteGroups b rest (failed ++ group, some e)
      | .ok errs => deleteGroups b rest (failed ++ errs.map (fun v => v.key), lastErr)

/-- Embedding of ks3 Driver.Delete: the batch size defaults to 1000 when the
policy setting is 0, the keys are chunked, and the groups are processed in
order; the failed keys and the last recorded error are returned. -/
def Delete (b : DeleteBackend) (batchSizeSetting : Nat) (files : List String) :
    List String × Option String :=
  deleteGroups b (loChunk (if batchSizeSetting = 0 then 1000 else batchSizeSetting) files)
    ([], none)

/-- Backend used by the C5 counterexample: both keys are absent, so the batch
call reports a NoSuchKey per-key error for k1. -/
def c5Backend : DeleteBackend where
  single := fun _ => none
  batch := fun g =>
    if g = ["k1", "k2"] then .ok [⟨"k1", errCodeNoSuchKey⟩] else .ok []

/-- C5, counterexample: deleting the two absent keys k1 and k2 in one batch,
where the backend reports NoSuchKey for k1, returns k1 as failed (with a nil
error), so a not-found response does not count as success in the multi-key
batch path and the failed subset comes without any error. -/
theorem delete_batch_no_such_key_counted_failed :
    Delete c5Backend 0 ["k1", "k2"] = (["k1"], none) ∧
    ((["k1"], (none : Option String)) ≠ ([], none)) := by
  refine ⟨?_, by decide⟩
  simp [Delete, loChunk, deleteGroups, c5Backend]

/-- C5, amended: a single-key delete of an absent key returns an empty failed
list and no error; a multi-key batch whose call succeeds returns exactly the
keys of the reported per-key errors, without aborting the rest and without
setting the returned error; a single-key delete failing with any other code
returns that key and that error. -/
theorem delete_failed_subset (b : DeleteBackend) :
    (∀ k, b.single k = some errCodeNoSuchKey → Delete b 0 [k] = ([], none)) ∧
    (∀ ks errs, 2 ≤ ks.length → ks.length ≤ 1000 → b.batch ks = .ok errs →
      Delete b 0 ks = (errs.map (fun v => v.key), none)) ∧
    (∀ k code, b.single k = some code → code ≠ errCodeNoSuchKey →
      Delete b 0 [k] = ([k], some code)) := by
  have hchunk : ∀ (ks : List String), ks ≠ [] → ks.length ≤ 1000 →
      loChunk 1000 ks = [ks] := by
    intro ks hne hlen
    match ks with
    | [] => exact absurd rfl hne
    | x :: xs =>
      rw [loChunk]
      simp only [List.length_cons] at hlen
      rw [List.take_of_length_le (by omega), List.drop_eq_nil_of_le (by omega)]
      rw [loChunk]
  refine ⟨?_, ?_, ?_⟩
  · intro k hk
    unfold Delete
    rw [if_pos rfl, hchunk [k] (by simp) (by simp)]
    simp [deleteGroups, hk]
  · intro ks errs h2 h1000 hb
    unfold Delete
    rw [if_pos rfl, hchunk ks (by rintro rfl; simp at h2) h1000]
    match ks, h2 with
    | k1 :: k2 :: rest, _ =>
      unfold deleteGroups
      rw [hb]
      rfl
  · intro k code hk hcode
    unfold Delete
    rw [if_pos rfl, hchunk [k] (by simp) (by simp)]
    simp [deleteGroups, hk, hcode]

/-- Backend used by the C5 witness: key ka is absent (NoSuchKey), key kb fails
with another code, and the two-key batch reports one per-key error. -/
def c5WitnessBackend : DeleteBackend where
  single := fun k => if k = "ka" then some errCodeNoSuchKey else some "AccessDenied"
  batch := fun _ => .ok [⟨"k1", "InternalError"⟩]

/-- C5, witness: the amended theorem applied to the concrete witness backend,
covering the absent single key, the two-key batch with one per-key error,
and the single key failing with a non-NoSuchKey code. -/
theorem delete_failed_subset_witness :
    Delete c5WitnessBackend 0 ["ka"] = ([], none) ∧
    Delete c5WitnessBackend 0 ["k1", "k2"] =
      ([⟨"k1", "InternalError"⟩].map (fun v : DeleteKeyError => v.key), none) ∧
    Delete c5WitnessBackend 0 ["kb"] = (["kb"], some "AccessDenied") :=
  ⟨(delete_failed_subset c5WitnessBackend).1 "ka" rfl,
    (delete_failed_subset c5WitnessBackend).2.1 ["k1", "k2"]
      [⟨"k1", "InternalError"⟩] (by decide) (by decide) rfl,
    (delete_failed_subset c5WitnessBackend).2.2 "kb" "AccessDenied" rfl
      (by decide)⟩

/-- Embedding of the TTL computation shared by Driver.Thumb and Driver.Source:
604800 seconds when no expire time is given, otherwise the seconds from now
until the expire time (time.Until), with no clamping. Times are whole
seconds. -/
def presignTTL (now : Int) (expire : Option Int) : Int :=
  match expire with
  | none => 604800
  | some e => e - now

/-- Parsed URL as produced by url.Parse on the presigned URL: everything
outside the query, plus the RawQuery carrying signature and expiry
parameters. -/
structure ParsedURL where
  base : String
  rawQuery : String
deriving DecidableEq

/-- Embedding of url.URL.String on the parsed presigned URL: the query is
reattached after a question mark when nonempty. -/
def urlString (u : ParsedURL) : String :=
  if u.rawQuery = "" then u.base else u.base ++ "?" ++ u.rawQuery

/-- Final step shared by Driver.Source and Driver.Thumb: when the policy is
not private, the RawQuery of the presigned URL is cleared before the URL is
returned. -/
def finalizePresignedURL (isPrivate : Bool) (presigned : ParsedURL) : ParsedURL :=
  if isPrivate then presigned else { presigned with rawQuery := "" }

/-- Embedding of ks3 Driver.Source: the TTL is computed, the backend presigns
a GET URL for that TTL (presign), and the query is stripped for non-private
policies. Backend and parse failures are outside this model. -/
def Source (isPrivate : Bool) (presign : Int → ParsedURL) (now : Int)
    (expire : Option Int) : ParsedURL :=
  finalizePresignedURL isPrivate (presign (presignTTL now expire))

/-- Embedding of ks3 Driver.Thumb, identical to Source after the thumbnail
parameters have been folded into the object key handed to the presigner. -/
def Thumb (isPrivate : Bool) (presign : Int → ParsedURL) (now : Int)
    (expire : Option Int) : ParsedURL :=
  finalizePresignedURL isPrivate (presign (presignTTL now expire))

/-- C6: the TTL defaults to 604800 seconds without an expire time and equals
the distance to the expire time otherwise, but it can be negative: at now
1000 with expire 990 both Thumb and Source hand the presigner the TTL -10,
although the in-code comment above both computations states that a TTL
below 0 must fall back to 7 days. -/
theorem presignTTL_can_be_negative :
    presignTTL 1000 none = 604800 ∧
    presignTTL 1000 (some 990) = -10 ∧
    presignTTL 1000 (some 990) < 0 := by
  refine ⟨rfl, rfl, by decide⟩

/-- C10: for a policy that is not private, Source and Thumb return the
presigned URL with its entire query removed, so the rendered URL is the bare
base without signature or expiry parameters; for a private policy the
presigned URL is returned untouched. -/
theorem source_thumb_query_stripped (presign : Int → ParsedURL) (now : Int)
    (expire : Option Int) :
    (Source false presign now expire).rawQuery = "" ∧
    urlString (Source false presign now expire) =
      (presign (presignTTL now expire)).base ∧
    Source true presign now expire = presign (presignTTL now expire) ∧
    (Thumb false presign now expire).rawQuery = "" ∧
    urlString (Thumb false presign now expire) =
      (presign (presignTTL now expire)).base ∧
    Thumb true presign now expire = presign (presignTTL now expire) := by
  refine ⟨rfl, ?_, rfl, rfl, ?_, rfl⟩ <;>
    simp [urlString, Thumb, Source, finalizePresignedURL]

end Ks3

namespace Manager

/-- One entry visited by the depth-first m.Walk over a directory root, in walk
order: its display name resolved to the archive-relative zip name, its type
and symbolic flag, its nominal size, and whether compressFileToArchive
succeeds on it. -/
structure WalkEntry where
  name : String
  isFolder : Bool
  isSymbolic : Bool
  size : Int
  compressOk : Bool
deriving DecidableEq

/-- A resolved top-level root of manager.CreateArchive: either a plain file
(streamed as one entry at the archive root) or a directory whose
depth-first walk visits the given entries in order. -/
inductive ArchiveRoot where
  | file (name : String) (size : Int) (compressOk : Bool) : ArchiveRoot
  | folder (entries : List WalkEntry) : ArchiveRoot
deriving DecidableEq

/-- Outcome of manager.CreateArchive: the returned failure count on a nil
error, or the fs.ErrArchiveSrcSizeTooBig abort (returned with count 0). -/
inductive ArchiveOutcome where
  | ok (failed : Nat) : ArchiveOutcome
  | sizeExceeded : ArchiveOutcome
deriving DecidableEq

/-- Embedding of the m.Walk callback loop inside manager.CreateArchive for one
directory root: folders and symbolic links are skipped; for every other
entry the compression runs (a failure increments the counter and is
skipped), the cumulative counter grows by the nominal size, and when a
positive MaxArchiveSize is crossed the callback returns
fs.ErrArchiveSrcSizeTooBig, aborting the walk. The result carries the
updated failure count, cumulative size, written entry names, and whether
the walk was aborted by the size check. -/
def walkFolder (maxSize : Int) :
    List WalkEntry → Nat → Int → List String → Nat × Int × List String × Bool
  | [], failed, compressed, written => (failed, compressed, written, false)
  | e :: rest, failed, compressed, written =>
    if e.isFolder ∨ e.isSymbolic then walkFolder maxSize rest failed compressed written
    else
      let failed₂ := if e.compressOk then failed else failed + 1
      let written₂ := if e.compressOk then written ++ [e.name] else written
      let compressed₂ := compressed + e.size
      if 0 < maxSize ∧ maxSize < compressed₂ then (failed₂, compressed₂, written₂, true)
      else walkFolder maxSize rest failed₂ compressed₂ written₂

/-- Embedding of the root loop of manager.CreateArchive, threading the failure
count, the cumulative pre-compression size, and the names written to the
zip stream. A file root is compressed directly (a failure increments the
counter) and crossing a positive MaxArchiveSize returns the
fs.ErrArchiveSrcSizeTooBig abort for the whole call; a directory root is
walked, and a walk error — including the size abort — only increments the
failure counter before the loop continues with the remaining roots. -/
def createArchiveLoop (maxSize : Int) :
    List ArchiveRoot → Nat → Int → List String → ArchiveOutcome × List String
  | [], failed, _, written => (.ok failed, written)
  | .file name size compressOk :: rest, failed, compressed, written =>
    let failed₂ := if compressOk then failed else failed + 1
    let written₂ := if compressOk then written ++ [name] else written
    let compressed₂ := compressed + size
    if 0 < maxSize ∧ maxSize < compressed₂ then (.sizeExceeded, written₂)
    else createArchiveLoop maxSize rest failed₂ compressed₂ written₂
  | .folder entries :: rest, failed, compressed, written =>
    match walkFolder maxSize entries failed compressed written with
    | (failed₂, compressed₂, written₂, aborted) =>
      createArchiveLoop maxSize rest (if aborted then failed₂ + 1 else failed₂)
        compressed₂ written₂

/-- Embedding of manager.CreateArchive over already-resolved roots, with
MaxArchiveSize as configured (0 disables the ceiling, as in newOption). The
returned list is the sequence of entry names successfully written to the
zip stream. -/
def CreateArchive (maxSize : Int) (roots : List ArchiveRoot) :
    ArchiveOutcome × List String :=
  createArchiveLoop maxSize roots 0 0 []

/-- C2, counterexample: with a ceiling of 100, a single directory root whose
walk meets one descendant file of size 200 crosses the ceiling, yet
CreateArchive returns a nil error with failure count 1 and a completed
archive containing that entry, instead of aborting with the size-exceeded
error. -/
theorem createArchive_folder_crossing_not_aborted :
    CreateArchive 100 [.folder [⟨"big", false, false, 200, true⟩]] =
      (.ok 1, ["big"]) ∧
    (ArchiveOutcome.ok 1 ≠ .sizeExceeded) := by
  refine ⟨?_, by decide⟩
  simp [CreateArchive, createArchiveLoop, walkFolder]

/-- C2, amended: when the cumulative nominal size crosses a positive ceiling
at a top-level file root, the whole operation aborts with the size-exceeded
error regardless of the remaining roots; when the crossing happens at a
descendant inside a directory walk, only that walk is aborted — the failure
counter is incremented once and the loop continues with the remaining
roots, so no size-exceeded error is returned for a lone directory root. -/
theorem createArchive_size_ceiling (maxSize size compressed : Int)
    (name : String) (compressOk : Bool) (rest : List ArchiveRoot)
    (failed failed₂ : Nat) (written written₂ : List String)
    (entries : List WalkEntry) (compressed₂ : Int)
    (hpos : 0 < maxSize) (hcross : maxSize < compressed + size)
    (hwalk : walkFolder maxSize entries failed compressed written =
      (failed₂, compressed₂, written₂, true)) :
    (createArchiveLoop maxSize (.file name size compressOk :: rest) failed
        compressed written).1 = .sizeExceeded ∧
    createArchiveLoop maxSize (.folder entries :: rest) failed compressed
        written =
      createArchiveLoop maxSize rest (failed₂ + 1) compressed₂ written₂ := by
  constructor
  · unfold createArchiveLoop
    rw [if_pos ⟨hpos, hcross⟩]
  · conv_lhs => rw [createArchiveLoop]
    rw [hwalk]
    rfl

/-- C2, witness: the amended theorem at a ceiling of 100 with a file root of
size 200 and a directory walk meeting a descendant of size 200. -/
theorem createArchive_size_ceiling_witness :
    (createArchiveLoop 100 [.file "big" 200 true] 0 0 []).1 = .sizeExceeded ∧
    createArchiveLoop 100 [.folder [⟨"big", false, false, 200, true⟩]] 0 0 [] =
      createArchiveLoop 100 [] (0 + 1) 200 ["big"] :=
  createArchive_size_ceiling 100 200 0 "big" true [] 0 0 [] ["big"]
    [⟨"big", false, false, 200, true⟩] 200 (by decide) (by decide)
    (by simp [walkFolder])

/-- C7: over a set of resolvable plain-file roots with no size ceiling,
CreateArchive returns a nil error whose failure count is exactly the number
of files whose read or compression failed, and the archive contains an
entry for every other file; in particular one failure among three files
yields count 1 with the two other entries written. -/
theorem createArchive_files_best_effort (files : List (String × Int × Bool)) :
    CreateArchive 0 (files.map fun f => .file f.1 f.2.1 f.2.2) =
      (.ok (files.countP fun f => !f.2.2),
        (files.filter fun f => f.2.2).map (fun f => f.1)) := by
  have key : ∀ (fs : List (String × Int × Bool)) (failed : Nat)
      (compressed : Int) (written : List String),
      createArchiveLoop 0 (fs.map fun f => .file f.1 f.2.1 f.2.2) failed
          compressed written =
        (.ok (failed + fs.countP fun f => !f.2.2),
          written ++ (fs.filter fun f => f.2.2).map (fun f => f.1)) := by
    intro fs
    induction fs with
    | nil => intro failed compressed written; simp [createArchiveLoop]
    | cons f rest ih =>
      intro failed compressed written
      by_cases hok : f.2.2
      · simp [List.map_cons, createArchiveLoop, hok, ih, List.countP_cons,
          List.filter_cons]
      · simp [List.map_cons, createArchiveLoop, hok, ih, List.countP_cons,
          List.filter_cons]
        omega
  have h := key files 0 0 []
  simpa [CreateArchive] using h

/-- Decimal digit characters of a natural number, most significant first; this
embeds the percent-d integer formatting used by fmt.Sprintf in
getArchiveListCacheKey. -/
def decimalDigits (n : Nat) : List Char :=
  if n < 10 then [Nat.digitChar n]
  else decimalDigits (n / 10) ++ [Nat.digitChar (n % 10)]
termination_by n
decreasing_by
  exact Nat.div_lt_self (by omega) (by omega)

/-- Decimal string of a natural number, the percent-d formatting of
fmt.Sprintf. -/
def decimalRepr (n : Nat) : String :=
  ⟨decimalDigits n⟩

/-- Numeric value of a decimal digit character. -/
def digitVal (c : Char) : Nat :=
  c.toNat - 48

/-- Numeric value of a decimal digit string, left to right. -/
def decimalVal (l : List Char) : Nat :=
  l.foldl (fun a c => a * 10 + digitVal c) 0

theorem digitVal_digitChar (d : Nat) (h : d < 10) :
    digitVal (Nat.digitChar d) = d := by
  interval_cases d <;> rfl

theorem decimalVal_append_digit (l : List Char) (c : Char) :
    decimalVal (l ++ [c]) = decimalVal l * 10 + digitVal c := by
  simp [decimalVal, List.foldl_append]

theorem decimalVal_decimalDigits (n : Nat) :
    decimalVal (decimalDigits n) = n := by
  induction n using Nat.strong_induction_on with
  | _ n ih =>
    rw [decimalDigits]
    by_cases h : n < 10
    · rw [if_pos h]
      simp [decimalVal, digitVal_digitChar n h]
    · rw [if_neg h]
      rw [decimalVal_append_digit,
        ih (n / 10) (Nat.div_lt_self (by omega) (by omega)),
        digitVal_digitChar (n % 10) (Nat.mod_lt n (by omega))]
      omega

theorem decimalDigits_injective (a b : Nat) (h : decimalDigits a = decimalDigits b) :
    a = b := by
  have ha := decimalVal_decimalDigits a
  have hb := decimalVal_decimalDigits b
  rw [h, hb] at ha
  exact ha.symm

/-- Embedding of manager.getArchiveListCacheKey: the sprintf format
archive_list_ percent-d _ percent-s over the entity id and the requested
text encoding name. Entity ids are ent integer keys, modelled as Nat. -/
def getArchiveListCacheKey (entity : Nat) (encoding : String) : String :=
  "archive_list_" ++ decimalRepr entity ++ "_" ++ encoding

theorem getArchiveListCacheKey_inj_entity (e₁ e₂ : Nat) (enc : String)
    (h : getArchiveListCacheKey e₁ enc = getArchiveListCacheKey e₂ enc) :
    e₁ = e₂ := by
  unfold getArchiveListCacheKey at h
  have hd := congrArg String.data h
  simp only [String.data_append] at hd
  have h₁ := List.append_cancel_right hd
  have h₂ := List.append_cancel_right h₁
  have h₃ := List.append_cancel_left h₂
  exact decimalDigits_injective e₁ e₂ h₃

/-- Entry names of the ZipEncodings table, the text encodings accepted for
non-UTF-8 zip entry names. -/
def zipEncodingNames : List String :=
  ["ibm866", "iso8859_2", "iso8859_3", "iso8859_4", "iso8859_5", "iso8859_6",
   "iso8859_7", "iso8859_8", "iso8859_8I", "iso8859_10", "iso8859_13",
   "iso8859_14", "iso8859_15", "iso8859_16", "koi8r", "koi8u", "macintosh",
   "windows874", "windows1250", "windows1251", "windows1252", "windows1253",
   "windows1254", "windows1255", "windows1256", "windows1257", "windows1258",
   "macintoshcyrillic", "gbk", "gb18030", "big5", "eucjp", "iso2022jp",
   "shiftjis", "euckr", "utf16be", "utf16le"]

/-- One archive entry decoded from a stored archive, the manager.ArchivedFile
record: slash-normalized name, size, optional modification time (whole
seconds) and directory flag. -/
structure ArchivedFile where
  name : String
  size : Int
  updatedAt : Option Int
  isDirectory : Bool
deriving DecidableEq

/-- Listing cache TTL in seconds, manager.ArchiveListCacheTTL. -/
def ArchiveListCacheTTL : Int := 3600

/-- One stored entry of the TTL key-value cache: key, cached listing, and
absolute expiry time. -/
structure KVEntry where
  key : String
  value : List ArchivedFile
  expireAt : Int
deriving DecidableEq

/-- Lookup in the TTL cache at the given time: the most recent entry for the
key answers while its expiry lies in the future. -/
def kvGet (store : List KVEntry) (now : Int) (key : String) :
    Option (List ArchivedFile) :=
  match store.find? (fun e => e.key == key && decide (now < e.expireAt)) with
  | some e => some e.value
  | none => none

/-- Store into the TTL cache at the given time: a fresh entry shadowing any
older entry for the same key, expiring after ttl seconds. -/
def kvSet (store : List KVEntry) (now : Int) (key : String)
    (v : List ArchivedFile) (ttl : Int) : List KVEntry :=
  ⟨key, v, now + ttl⟩ :: store

/-- Inputs of one manager.ListArchiveFiles call that are resolved from the
virtual filesystem and the entity layer before the cache is consulted:
whether m.fs.Get succeeds, the resolved file type, size and extension, the
group decompress-size limit, whether the desired entity is found and its
id, whether GetEntitySource succeeds, and the decoding outcome of the
format reader on this entity (error message or entry list). -/
structure ListEnv where
  fileOk : Bool
  isFile : Bool
  fileSize : Int
  decompressLimit : Int
  fileExt : String
  entityFound : Bool
  entityID : Nat
  esOk : Bool
  decode : Except String (List ArchivedFile)

/-- Errors surfaced by manager.ListArchiveFiles, in source order. -/
inductive ListErr where
  | getFileError : ListErr
  | notAFile : ListErr
  | fileTooBig : ListErr
  | entityNotExist : ListErr
  | unsupportedEncoding : ListErr
  | entitySourceError : ListErr
  | unsupportedFormat : ListErr
  | decodeError (msg : String) : ListErr
deriving DecidableEq

/-- Result of one embedded ListArchiveFiles call: the returned value or
error, the cache state afterwards, and whether the format decoder was
invoked. -/
instance {ε α : Type} [DecidableEq ε] [DecidableEq α] : DecidableEq (Except ε α) :=
  fun a b =>
    match a, b with
    | .error e₁, .error e₂ =>
      if h : e₁ = e₂ then .isTrue (by rw [h]) else .isFalse (by simp [h])
    | .error _, .ok _ => .isFalse (by simp)
    | .ok _, .error _ => .isFalse (by simp)
    | .ok v₁, .ok v₂ =>
      if h : v₁ = v₂ then .isTrue (by rw [h]) else .isFalse (by simp [h])

structure ListResult where
  result : Except ListErr (List ArchivedFile)
  kv : List KVEntry
  decoded : Bool
deriving DecidableEq

/-- Embedding of manager.ListArchiveFiles: resolve the file (error when the
lookup fails or the path is not a file), enforce the positive
decompress-size limit, resolve the desired entity, validate a nonempty
encoding name against the lowered ZipEncodings keys, then consult the cache
under the key of (entity id, encoding name) — a live entry answers without
touching the entity or the decoder. On a miss the entity source is opened,
the decoder is picked by extension (zip or 7z, others rejected) and run;
a decoder error is returned without caching, a decoded listing is cached
for ArchiveListCacheTTL seconds and returned. -/
def ListArchiveFiles (env : ListEnv) (zipEncoding : String)
    (kv : List KVEntry) (now : Int) : ListResult :=
  if ¬env.fileOk then ⟨.error .getFileError, kv, false⟩
  else if ¬env.isFile then ⟨.error .notAFile, kv, false⟩
  else if 0 < env.decompressLimit ∧ env.decompressLimit < env.fileSize then
    ⟨.error .fileTooBig, kv, false⟩
  else if ¬env.entityFound then ⟨.error .entityNotExist, kv, false⟩
  else if zipEncoding ≠ "" ∧ ¬(zipEncodingNames.contains zipEncoding.toLower) then
    ⟨.error .unsupportedEncoding, kv, false⟩
  else
    match kvGet kv now (getArchiveListCacheKey env.entityID zipEncoding) with
    | some res => ⟨.ok res, kv, false⟩
    | none =>
      if ¬env.esOk then ⟨.error .entitySourceError, kv, false⟩
      else if env.fileExt ≠ "zip" ∧ env.fileExt ≠ "7z" then
        ⟨.error .unsupportedFormat, kv, false⟩
      else
        match env.decode with
        | .error msg => ⟨.error (.decodeError msg), kv, true⟩
        | .ok fileList =>
          ⟨.ok fileList,
            kvSet kv now (getArchiveListCacheKey env.entityID zipEncoding)
              fileList ArchiveListCacheTTL, true⟩

/-- Validation conditions of ListArchiveFiles that precede the cache lookup. -/
def envValid (env : ListEnv) (zipEncoding : String) : Prop :=
  env.fileOk = true ∧ env.isFile = true ∧
  ¬(0 < env.decompressLimit ∧ env.decompressLimit < env.fileSize) ∧
  env.entityFound = true ∧
  (zipEncoding = "" ∨ zipEncodingNames.contains zipEncoding.toLower)

instance (env : ListEnv) (zipEncoding : String) :
    Decidable (envValid env zipEncoding) := by
  unfold envValid
  infer_instance

theorem listArchiveFiles_cache_hit (env : ListEnv) (zipEncoding : String)
    (kv : List KVEntry) (now : Int) (res : List ArchivedFile)
    (hv : envValid env zipEncoding)
    (hhit : kvGet kv now (getArchiveListCacheKey env.entityID zipEncoding) =
      some res) :
    ListArchiveFiles env zipEncoding kv now = ⟨.ok res, kv, false⟩ := by
  obtain ⟨h1, h2, h3, h4, h5⟩ := hv
  unfold ListArchiveFiles
  rw [if_neg (by simp [h1]), if_neg (by simp [h2]), if_neg h3,
    if_neg (by simp [h4]), if_neg (by simpa using fun he => (h5.resolve_left he)),
    hhit]

theorem listArchiveFiles_cache_miss (env : ListEnv) (zipEncoding : String)
    (kv : List KVEntry) (now : Int)
    (hv : envValid env zipEncoding)
    (hmiss : kvGet kv now (getArchiveListCacheKey env.entityID zipEncoding) =
      none)
    (hes : env.esOk = true) (hext : env.fileExt = "zip" ∨ env.fileExt = "7z") :
    ListArchiveFiles env zipEncoding kv now =
      match env.decode with
      | .error msg => ⟨.error (.decodeError msg), kv, true⟩
      | .ok fileList =>
        ⟨.ok fileList,
          kvSet kv now (getArchiveListCacheKey env.entityID zipEncoding)
            fileList ArchiveListCacheTTL, true⟩ := by
  obtain ⟨h1, h2, h3, h4, h5⟩ := hv
  unfold ListArchiveFiles
  rw [if_neg (by simp [h1]), if_neg (by simp [h2]), if_neg h3,
    if_neg (by simp [h4]), if_neg (by simpa using fun he => (h5.resolve_left he)),
    hmiss]
  rw [if_neg (by simp [hes]), if_neg (by rcases hext with h | h <;> simp [h])]

/-- C8: a successful ListArchiveFiles call decodes once and caches its listing
under the key built from the entity id and the encoding name alone; a
second call with the same pair inside the 3600-second window answers from
the cache without opening the entity source or invoking a decoder and
leaves the cache unchanged; the stored entry is invisible to every other
entity id under the same encoding (distinct ids give distinct keys), and
any call whose key misses the cache invokes the decoder — so a changed
entity id alone yields a fresh decode, with no explicit invalidation. -/
theorem listArchiveFiles_memoizes (env : ListEnv) (zipEncoding : String)
    (kv : List KVEntry) (t₀ t₁ : Int) (fileList : List ArchivedFile)
    (hv : envValid env zipEncoding)
    (hmiss : kvGet kv t₀ (getArchiveListCacheKey env.entityID zipEncoding) = none)
    (hes : env.esOk = true)
    (hext : env.fileExt = "zip" ∨ env.fileExt = "7z")
    (hdec : env.decode = .ok fileList)
    (hwin : t₁ < t₀ + ArchiveListCacheTTL) :
    ListArchiveFiles env zipEncoding kv t₀ =
      ⟨.ok fileList,
        kvSet kv t₀ (getArchiveListCacheKey env.entityID zipEncoding) fileList
          ArchiveListCacheTTL, true⟩ ∧
    ListArchiveFiles env zipEncoding
        (kvSet kv t₀ (getArchiveListCacheKey env.entityID zipEncoding) fileList
          ArchiveListCacheTTL) t₁ =
      ⟨.ok fileList,
        kvSet kv t₀ (getArchiveListCacheKey env.entityID zipEncoding) fileList
          ArchiveListCacheTTL, false⟩ ∧
    (∀ id₂, id₂ ≠ env.entityID →
      kvGet (kvSet kv t₀ (getArchiveListCacheKey env.entityID zipEncoding)
          fileList ArchiveListCacheTTL) t₁ (getArchiveListCacheKey id₂ zipEncoding) =
        kvGet kv t₁ (getArchiveListCacheKey id₂ zipEncoding)) ∧
    (∀ (env₂ : ListEnv) (kv₂ : List KVEntry) (t₂ : Int),
      envValid env₂ zipEncoding →
      kvGet kv₂ t₂ (getArchiveListCacheKey env₂.entityID zipEncoding) = none →
      env₂.esOk = true → (env₂.fileExt = "zip" ∨ env₂.fileExt = "7z") →
      (ListArchiveFiles env₂ zipEncoding kv₂ t₂).decoded = true) := by
  refine ⟨?_, ?_, ?_, ?_⟩
  · rw [listArchiveFiles_cache_miss env zipEncoding kv t₀ hv hmiss hes hext, hdec]
  · refine listArchiveFiles_cache_hit env zipEncoding _ t₁ fileList hv ?_
    unfold kvGet kvSet
    rw [List.find?_cons_of_pos _ (by simp [hwin])]
  · intro id₂ hne
    have hkey : getArchiveListCacheKey id₂ zipEncoding ≠
        getArchiveListCacheKey env.entityID zipEncoding := by
      intro h
      exact hne (getArchiveListCacheKey_inj_entity id₂ env.entityID zipEncoding h)
    unfold kvGet kvSet
    rw [List.find?_cons_of_neg _ (by simp; intro h; exact (hkey h.symm).elim)]
  · intro env₂ kv₂ t₂ hv₂ hmiss₂ hes₂ hext₂
    rw [listArchiveFiles_cache_miss env₂ zipEncoding kv₂ t₂ hv₂ hmiss₂ hes₂ hext₂]
    match env₂.decode with
    | .error msg => rfl
    | .ok l => rfl

/-- Environment of the C8 witness: a resolvable zip file of size 10 under no
decompress limit, entity id 1, whose decode yields one entry. -/
def c8Env : ListEnv :=
  ⟨true, true, 10, 0, "zip", true, 1, true, .ok [⟨"a.txt", 3, none, false⟩]⟩

/-- C8, witness: the theorem applied to the concrete environment, an empty
cache, call times 0 and 100, yielding the first call decoding and caching
and the second call answering from the cache without decoding. -/
theorem listArchiveFiles_memoizes_witness :
    ListArchiveFiles c8Env "" [] 0 =
      ⟨.ok [⟨"a.txt", 3, none, false⟩],
        kvSet [] 0 (getArchiveListCacheKey c8Env.entityID "")
          [⟨"a.txt", 3, none, false⟩] ArchiveListCacheTTL, true⟩ ∧
    ListArchiveFiles c8Env ""
        (kvSet [] 0 (getArchiveListCacheKey c8Env.entityID "")
          [⟨"a.txt", 3, none, false⟩] ArchiveListCacheTTL) 100 =
      ⟨.ok [⟨"a.txt", 3, none, false⟩],
        kvSet [] 0 (getArchiveListCacheKey c8Env.entityID "")
          [⟨"a.txt", 3, none, false⟩] ArchiveListCacheTTL, false⟩ :=
  have h := listArchiveFiles_memoizes c8Env "" [] 0 100
    [⟨"a.txt", 3, none, false⟩] (by decide) rfl rfl (Or.inl rfl) rfl (by decide)
  ⟨h.1, h.2.1⟩

/-- C9: when the format decoder fails, ListArchiveFiles returns the wrapped
decode error, stores nothing in the cache (the cache state is returned
unchanged), and a later call with the same entity id and encoding misses
the cache again and re-invokes the decoder — failed decodes are never
memoized. -/
theorem listArchiveFiles_failed_decode_not_cached (env : ListEnv)
    (zipEncoding : String) (kv : List KVEntry) (t₀ t₁ : Int) (msg : String)
    (hv : envValid env zipEncoding)
    (hmiss₀ : kvGet kv t₀ (getArchiveListCacheKey env.entityID zipEncoding) = none)
    (hes : env.esOk = true)
    (hext : env.fileExt = "zip" ∨ env.fileExt = "7z")
    (hdec : env.decode = .error msg)
    (hmiss₁ : kvGet kv t₁ (getArchiveListCacheKey env.entityID zipEncoding) = none) :
    ListArchiveFiles env zipEncoding kv t₀ =
      ⟨.error (.decodeError msg), kv, true⟩ ∧
    ListArchiveFiles env zipEncoding kv t₁ =
      ⟨.error (.decodeError msg), kv, true⟩ := by
  constructor
  · rw [listArchiveFiles_cache_miss env zipEncoding kv t₀ hv hmiss₀ hes hext, hdec]
  · rw [listArchiveFiles_cache_miss env zipEncoding kv t₁ hv hmiss₁ hes hext, hdec]

/-- Environment of the C9 witness: as the C8 environment but with a failing
decoder. -/
def c9Env : ListEnv :=
  ⟨true, true, 10, 0, "zip", true, 1, true, .error "corrupt archive"⟩

/-- C9, witness: the theorem applied to the failing-decoder environment with
an empty cache at times 0 and 100; both calls decode and both return the
error with the cache untouched. -/
theorem listArchiveFiles_failed_decode_not_cached_witness :
    ListArchiveFiles c9Env "" [] 0 =
      ⟨.error (.decodeError "corrupt archive"), [], true⟩ ∧
    ListArchiveFiles c9Env "" [] 100 =
      ⟨.error (.decodeError "corrupt archive"), [], true⟩ :=
  listArchiveFiles_failed_decode_not_cached c9Env "" [] 0 100 "corrupt archive"
    (by decide) rfl rfl (Or.inl rfl) rfl rfl

end Manager
